import Mathlib

/-!
Shallow embedding of `eskombillparser.py` (class `EskomBillProcessor`).

Texts are modelled as `List Char`.  Python's `re` module, as used at the
call sites of this program, is modelled by a small backtracking matcher
over an AST (`Re`) that covers exactly the constructs appearing in the
source's patterns: literal characters, character classes, greedy and lazy
`+` / `*` over a single-character class (every quantifier in the source's
patterns quantifies a single-character class), alternation, optional
non-capturing groups, one capture group, and the `$` anchor.  Every
modelled call site passes `re.IGNORECASE`, so case-insensitivity is baked
into the matcher: a literal compares case-folded, and a character matches
a class if the character, its lowercase or its uppercase form does
(CPython's IGNORECASE class semantics).  Character classes `\s`, `\w`,
`\d` are modelled at ASCII scope, which covers the bill texts concerned.
Python floats are modelled as exact rationals (`ℚ`); `float(...)` parsing
is modelled for finite decimal/exponent literals (IEEE infinities, NaN
and digit underscores are outside the model).
-/

namespace EskomBill

abbrev Str := List Char

/-- ASCII whitespace, as matched by Python's `str.strip` and `\s`. -/
def isPySpace (c : Char) : Bool :=
  c = ' ' || c = '\t' || c = '\n' || c = '\r' || c = '\x0b' || c = '\x0c'

/-- Remove trailing `isPySpace` characters (the tail half of `str.strip`). -/
def stripEnd : Str → Str
  | [] => []
  | c :: t =>
    match stripEnd t with
    | [] => if isPySpace c then [] else [c]
    | r => c :: r

/-- Python `str.strip()`: drop leading and trailing whitespace. -/
def pyStrip (s : Str) : Str := stripEnd (s.dropWhile isPySpace)

/-- The slice `text[a:b]` of a text. -/
def slice (cs : Str) (a b : Nat) : Str := (cs.take b).drop a

/-- Regular-expression AST covering the constructs used by the source's
patterns.  `rep` is `*` over a one-character class (`lazy` selects `*?`);
`grp` is the single capture group; `eos` is `$`. -/
inductive Re where
  | eps
  | lit (c : Char)
  | cls (q : Char → Bool)
  | seq (a b : Re)
  | alt (a b : Re)
  | rep (q : Char → Bool) (lazy : Bool)
  | grp (a : Re)
  | eos

/-- Matcher state: current position and the span captured by group 1. -/
structure MSt where
  pos : Nat
  g1 : Option (Nat × Nat)
deriving DecidableEq

/-- A character `d` of the text matches a class `q` under IGNORECASE. -/
def clsMatch (q : Char → Bool) (d : Char) : Bool :=
  q d || q d.toLower || q d.toUpper

/-- Backtracking loop for `rep`: with fuel `n`, try consuming one
class character and recursing, or passing to the continuation `k`;
greedy tries consumption first, lazy tries `k` first. -/
def repRun (q : Char → Bool) (lazy : Bool) (cs : Str) (k : MSt → Option MSt) :
    MSt → Nat → Option MSt
  | st, 0 => k st
  | st, n + 1 =>
    let step (f : MSt → Option MSt) : Option MSt :=
      match cs.get? st.pos with
      | some d => if clsMatch q d then f ⟨st.pos + 1, st.g1⟩ else none
      | none => none
    if lazy then
      match k st with
      | some r => some r
      | none => step (fun st' => repRun q lazy cs k st' n)
    else
      match step (fun st' => repRun q lazy cs k st' n) with
      | some r => some r
      | none => k st

/-- CPS backtracking matcher.  `mrun p cs st k` matches `p` at `st.pos`
in `cs` and calls the continuation `k` at every candidate end state, in
Python `re`'s backtracking priority order (leftmost alternative first,
greedy longest-first, lazy shortest-first). -/
def mrun : Re → Str → MSt → (MSt → Option MSt) → Option MSt
  | .eps, _, st, k => k st
  | .lit c, cs, st, k =>
    match cs.get? st.pos with
    | some d => if d.toLower = c.toLower then k ⟨st.pos + 1, st.g1⟩ else none
    | none => none
  | .cls q, cs, st, k =>
    match cs.get? st.pos with
    | some d => if clsMatch q d then k ⟨st.pos + 1, st.g1⟩ else none
    | none => none
  | .seq a b, cs, st, k => mrun a cs st (fun st' => mrun b cs st' k)
  | .alt a b, cs, st, k =>
    match mrun a cs st k with
    | some r => some r
    | none => mrun b cs st k
  | .rep q lazy, cs, st, k => repRun q lazy cs k st (cs.length - st.pos)
  | .grp a, cs, st, k => mrun a cs st (fun st' => k ⟨st'.pos, some (st.pos, st'.pos)⟩)
  | .eos, cs, st, k =>
    if st.pos = cs.length ∨ (st.pos + 1 = cs.length ∧ cs.get? st.pos = some '\n') then
      k st
    else none

/-- Try to match `p` anchored at position `i` of `cs`. -/
def matchAt (p : Re) (cs : Str) (i : Nat) : Option MSt :=
  mrun p cs ⟨i, none⟩ some

/-- Scan for the leftmost match from position `i`, with fuel. -/
def searchFrom (p : Re) (cs : Str) : Nat → Nat → Option (Nat × MSt)
  | _, 0 => none
  | i, fuel + 1 =>
    match matchAt p cs i with
    | some st => some (i, st)
    | none => searchFrom p cs (i + 1) fuel

/-- Model of `re.search(pattern, text, re.IGNORECASE)`: the leftmost match. -/
def reSearch (p : Re) (cs : Str) : Option (Nat × MSt) :=
  searchFrom p cs 0 (cs.length + 1)

/-- `EskomBillProcessor.extract_value`: first capture group of the first
case-insensitive match, stripped; `None` when there is no match.  (In
every pattern of the source, group 1 participates in any match.) -/
def extract_value (text : Str) (pattern : Re) : Option Str :=
  match reSearch pattern text with
  | none => none
  | some (_, st) =>
    match st.g1 with
    | some (a, b) => some (pyStrip (slice text a b))
    | none => none

/-- `\d` (ASCII scope). -/
def isDigitC (c : Char) : Bool := c.isDigit

/-- `\w` (ASCII scope). -/
def isWordC (c : Char) : Bool := c.isAlphanum || c = '_'

/-- A sequence of case-insensitive literal characters. -/
def lits (s : String) : Re := s.data.foldr (fun c r => Re.seq (.lit c) r) .eps

/-- `X+` / `X+?` over a one-character class. -/
def plusC (q : Char → Bool) (lazy : Bool) : Re := .seq (.cls q) (.rep q lazy)

/-- `X{n}` over a one-character class. -/
def repn (q : Char → Bool) : Nat → Re
  | 0 => .eps
  | n + 1 => .seq (.cls q) (repn q n)

/-- `(?:X)?` (greedy optional). -/
def optRe (a : Re) : Re := .alt a .eps

/-- `\s+`. -/
def wsPlus : Re := plusC isPySpace false

/-- `\s*`. -/
def wsStar : Re := .rep isPySpace false

/-- `[\d,.]`. -/
def numCls (c : Char) : Bool := c.isDigit || c = ',' || c = '.'

/-- `[\d,.-]`. -/
def amtCls (c : Char) : Bool := c.isDigit || c = ',' || c = '.' || c = '-'

/-- `[\w,\s&]`. -/
def nameCls (c : Char) : Bool := isWordC c || c = ',' || isPySpace c || c = '&'

/-- `[^\d]`. -/
def nonDigit (c : Char) : Bool := !c.isDigit

/-- `[A-Z]` (case-insensitivity is applied by the matcher). -/
def upperAZ (c : Char) : Bool := 'A' ≤ c && c ≤ 'Z'

/-- `(\d{4}-\d{2}-\d{2})`. -/
def dateGrp : Re :=
  .grp (.seq (repn isDigitC 4) (.seq (.lit '-') (.seq (repn isDigitC 2)
    (.seq (.lit '-') (repn isDigitC 2)))))

/-- `([\d,.]+|-)`. -/
def numGrp : Re := .grp (.alt (plusC numCls false) (.lit '-'))

/-- `YOUR ACCOUNT NO\s+(\d+)`. -/
def patAccount : Re :=
  .seq (lits "YOUR ACCOUNT NO") (.seq wsPlus (.grp (plusC isDigitC false)))

/-- `BILLING DATE\s+(\d{4}-\d{2}-\d{2})`. -/
def patBillingDate : Re := .seq (lits "BILLING DATE") (.seq wsPlus dateGrp)

/-- `TAX INVOICE NO\s+(\d+)`. -/
def patInvoice : Re :=
  .seq (lits "TAX INVOICE NO") (.seq wsPlus (.grp (plusC isDigitC false)))

/-- `ACCOUNT MONTH\s+([A-Z]+ \d{4})`. -/
def patMonth : Re :=
  .seq (lits "ACCOUNT MONTH") (.seq wsPlus
    (.grp (.seq (plusC upperAZ false) (.seq (.lit ' ') (repn isDigitC 4)))))

/-- `(?:CURRENT )?DUE DATE\s+(\d{4}-\d{2}-\d{2})`. -/
def patDueDate : Re :=
  .seq (optRe (lits "CURRENT ")) (.seq (lits "DUE DATE") (.seq wsPlus dateGrp))

/-- `NAME\s+([\w,\s&]+)` (the `process_pdf` customer-name pattern). -/
def patName : Re := .seq (lits "NAME") (.seq wsPlus (.grp (plusC nameCls false)))

/-- `Opening Reading[^\d]+([\d,.]+|-)`. -/
def patOpening : Re :=
  .seq (lits "Opening Reading") (.seq (plusC nonDigit false) numGrp)

/-- `Closing Reading[^\d]+([\d,.]+|-)`. -/
def patClosing : Re :=
  .seq (lits "Closing Reading") (.seq (plusC nonDigit false) numGrp)

/-- `TOTAL ENERGY CONSUMED[^\d]+([\d,.]+|-)`. -/
def patConsumption : Re :=
  .seq (lits "TOTAL ENERGY CONSUMED") (.seq (plusC nonDigit false) numGrp)

/-- `TOTAL AMOUNT DUE\s+R\s+([\d,.-]+)(?:CR)?`. -/
def patTotalDue : Re :=
  .seq (lits "TOTAL AMOUNT DUE") (.seq wsPlus (.seq (.lit 'R') (.seq wsPlus
    (.seq (.grp (plusC amtCls false)) (optRe (lits "CR"))))))

/-- `Network Capacity Charge[^\d]+([\d,.]+|-)`. -/
def patNetwork : Re :=
  .seq (lits "Network Capacity Charge") (.seq (plusC nonDigit false) numGrp)

/-- `Energy Charge[^\d]+([\d,.]+|-)`. -/
def patEnergy : Re :=
  .seq (lits "Energy Charge") (.seq (plusC nonDigit false) numGrp)

/-- `NAME\s+([\w,\s&]+?)(?:\s*FAX|\s*$)` (the `clean_customer_name` pattern). -/
def patCleanName : Re :=
  .seq (lits "NAME") (.seq wsPlus (.seq (.grp (plusC nameCls true))
    (.alt (.seq wsStar (lits "FAX")) (.seq wsStar .eos))))

/-- `clean_customer_name`: search with `patCleanName` (IGNORECASE) and
return group 1 stripped, or `None` when there is no match. -/
def clean_customer_name (text : Str) : Option Str :=
  match reSearch patCleanName text with
  | none => none
  | some (_, st) =>
    match st.g1 with
    | some (a, b) => some (pyStrip (slice text a b))
    | none => none

/-- Numeric value of an ASCII digit string. -/
def digitsToNat (ds : Str) : Nat := ds.foldl (fun a c => a * 10 + (c.toNat - 48)) 0

/-- Syntactic form of a parsed Python float literal: sign, integer part,
fractional digits (value and count), exponent sign and value. -/
structure PyNum where
  negative : Bool
  intPart : Nat
  fracPart : Nat
  fracLen : Nat
  expNeg : Bool
  expVal : Nat
deriving DecidableEq

/-- Parse an optional exponent suffix (`e`/`E`, optional sign, digits);
fail on any other residue. -/
def parseExpSyn : Str → Option (Bool × Nat)
  | [] => some (false, 0)
  | e :: t =>
    if e = 'e' ∨ e = 'E' then
      let eneg : Bool := match t with | '-' :: _ => true | _ => false
      let t1 : Str := match t with | '+' :: u => u | '-' :: u => u | u => u
      let ds := t1.takeWhile Char.isDigit
      let rest := t1.dropWhile Char.isDigit
      if ds ≠ [] ∧ rest = [] then some (eneg, digitsToNat ds) else none
    else none

/-- Syntactic part of the Python `float(s)` model: strip whitespace, read
an optional sign, digits with an optional point and fraction (at least
one digit overall), and an optional exponent.  Non-numeric strings yield
`none` (Python raises `ValueError` there). -/
def pyFloatSyn (s0 : Str) : Option PyNum :=
  let s := pyStrip s0
  let neg : Bool := match s with | '-' :: _ => true | _ => false
  let s1 : Str := match s with | '+' :: t => t | '-' :: t => t | t => t
  let ip := s1.takeWhile Char.isDigit
  let r1 := s1.dropWhile Char.isDigit
  match r1 with
  | '.' :: r2 =>
    let fp := r2.takeWhile Char.isDigit
    let r3 := r2.dropWhile Char.isDigit
    if ip = [] ∧ fp = [] then none
    else
      match parseExpSyn r3 with
      | some ex => some ⟨neg, digitsToNat ip, digitsToNat fp, fp.length, ex.1, ex.2⟩
      | none => none
  | r2 =>
    if ip = [] then none
    else
      match parseExpSyn r2 with
      | some ex => some ⟨neg, digitsToNat ip, 0, 0, ex.1, ex.2⟩
      | none => none

/-- Numeric value of a parsed float literal, as an exact rational. -/
def PyNum.toRat (x : PyNum) : ℚ :=
  let m : ℚ := (if x.negative then -1 else 1) *
    ((x.intPart : ℚ) + (x.fracPart : ℚ) / (10 : ℚ) ^ x.fracLen)
  if x.expNeg then m / (10 : ℚ) ^ x.expVal else m * (10 : ℚ) ^ x.expVal

/-- Model of Python `float(s)` on finite decimal literals, as an exact
rational (IEEE rounding, infinities, NaN and digit underscores are
outside the model). -/
def pyFloat (s : Str) : Option ℚ := (pyFloatSyn s).map PyNum.toRat

/-- `value.replace(',', '')`. -/
def removeCommas (s : Str) : Str := s.filter (fun c => c ≠ ',')

/-- `clean_numeric_value`, with the value paired with the number of
warnings printed: `None`, `''` and `'-'` map silently to `0.0`; otherwise
commas are removed and the string parsed as a float; a parse failure
prints one warning and yields `0.0`. -/
def clean_numeric_value (value : Option Str) : ℚ × Nat :=
  match value with
  | none => (0, 0)
  | some s =>
    if s = [] ∨ s = ['-'] then (0, 0)
    else
      match pyFloat (removeCommas s) with
      | some q => (q, 0)
      | none => (0, 1)

/-- Round half to even (Python's `round` tie-breaking). -/
def roundHalfEven (q : ℚ) : ℤ :=
  let n : ℤ := ⌊q⌋
  if q - n < 1 / 2 then n
  else if (1 : ℚ) / 2 < q - n then n + 1
  else if n % 2 = 0 then n else n + 1

/-- Python `round(x, 2)` on the exact-rational model. -/
def round2 (q : ℚ) : ℚ := (roundHalfEven (q * 100) : ℚ) / 100

/-- `calculate_vat`: `round(float(total_charges) * 0.15, 2)`, with the
bare `except` returning `None` when the input is not interpretable as a
number. -/
def calculate_vat (total_charges : Str) : Option ℚ :=
  match pyFloat total_charges with
  | some q => some (round2 (q * (15 / 100)))
  | none => none

/-- A record value: textual fields hold an optional string, numeric
fields hold the float produced by `clean_numeric_value`. -/
inductive FieldValue where
  | vStr (s : Option Str)
  | vNum (q : ℚ)
deriving DecidableEq

/-- The dict built and appended by `process_pdf` for one document's text:
twelve keys, in the source's insertion order. -/
def buildRecord (text : Str) : List (String × FieldValue) :=
  [ ("account_number", .vStr (extract_value text patAccount)),
    ("billing_date", .vStr (extract_value text patBillingDate)),
    ("invoice_number", .vStr (extract_value text patInvoice)),
    ("account_month", .vStr (extract_value text patMonth)),
    ("due_date", .vStr (extract_value text patDueDate)),
    ("customer_name", .vStr (extract_value text patName)),
    ("opening_reading", .vNum (clean_numeric_value (extract_value text patOpening)).1),
    ("closing_reading", .vNum (clean_numeric_value (extract_value text patClosing)).1),
    ("consumption", .vNum (clean_numeric_value (extract_value text patConsumption)).1),
    ("total_due", .vNum (clean_numeric_value (extract_value text patTotalDue)).1),
    ("network_charge", .vNum (clean_numeric_value (extract_value text patNetwork)).1),
    ("energy_charge", .vNum (clean_numeric_value (extract_value text patEnergy)).1) ]

/-- Dict lookup by key. -/
def lookupField (f : String) : List (String × FieldValue) → Option FieldValue
  | [] => none
  | (g, v) :: r => if f = g then some v else lookupField f r

abbrev BillRec := List (String × FieldValue)

/-- The six textual fields of the appended record. -/
inductive TextField where
  | account_number | billing_date | invoice_number
  | account_month | due_date | customer_name
deriving DecidableEq

def textFieldName : TextField → String
  | .account_number => "account_number"
  | .billing_date => "billing_date"
  | .invoice_number => "invoice_number"
  | .account_month => "account_month"
  | .due_date => "due_date"
  | .customer_name => "customer_name"

def textFieldPat : TextField → Re
  | .account_number => patAccount
  | .billing_date => patBillingDate
  | .invoice_number => patInvoice
  | .account_month => patMonth
  | .due_date => patDueDate
  | .customer_name => patName

/-- The six numeric fields of the appended record. -/
inductive NumField where
  | opening_reading | closing_reading | consumption
  | total_due | network_charge | energy_charge
deriving DecidableEq

def numFieldName : NumField → String
  | .opening_reading => "opening_reading"
  | .closing_reading => "closing_reading"
  | .consumption => "consumption"
  | .total_due => "total_due"
  | .network_charge => "network_charge"
  | .energy_charge => "energy_charge"

def numFieldPat : NumField → Re
  | .opening_reading => patOpening
  | .closing_reading => patClosing
  | .consumption => patConsumption
  | .total_due => patTotalDue
  | .network_charge => patNetwork
  | .energy_charge => patEnergy

/-- `"\n".join(...)` over the page texts. -/
def joinLines : List Str → Str
  | [] => []
  | [x] => x
  | x :: xs => x ++ '\n' :: joinLines xs

/-- A document as seen through `pdfplumber`: either opening raises, or it
yields a list of pages whose `extract_text()` results are each a string
or `None`. -/
inductive PdfDoc where
  | openFail
  | pages (ps : List (Option Str))

/-- `process_pdf`: on any exception (open failure, or the `join` raising
`TypeError` because some page's text is `None`) print an error and return
`False` without touching `self.data`; otherwise build the record from the
joined text, append it, and return `True`.  The state `data` models
`self.data` before and after the call. -/
def process_pdf (doc : PdfDoc) (data : List BillRec) : Bool × List BillRec :=
  match doc with
  | .openFail => (false, data)
  | .pages ps =>
    if ps.all (fun o => o.isSome) then
      (true, data ++ [buildRecord (joinLines (ps.map (fun o => o.getD [])))])
    else (false, data)

/-- `process_directory`: fold `process_pdf` over the directory's
documents, counting successes; returns `(success_count, final data)`. -/
def process_directory (docs : List PdfDoc) (data : List BillRec) : Nat × List BillRec :=
  match docs with
  | [] => (0, data)
  | d :: ds =>
    let r := process_pdf d data
    let rest := process_directory ds r.2
    (if r.1 then rest.1 + 1 else rest.1, rest.2)

/-- Whether a document is processable (no exception along its handling). -/
def docSucceeds : PdfDoc → Bool
  | .openFail => false
  | .pages ps => ps.all (fun o => o.isSome)

/-- A processable document (one page whose text extraction succeeds). -/
def sampleGoodDoc : PdfDoc := .pages [some []]

/-- A failing document (opening it raises). -/
def sampleBadDoc : PdfDoc := .openFail

/-- Index of the last occurrence of a character satisfying `pr`. -/
def rfindIdx (pr : Char → Bool) (s : Str) : Option Nat :=
  match s.reverse.findIdx? pr with
  | some i => some (s.length - 1 - i)
  | none => none

/-- `os.path.splitext` (POSIX): split off the extension at the last dot,
provided it lies in the basename (after the last `/`) and the basename is
not made of leading dots only up to it. -/
def splitext (p : Str) : Str × Str :=
  match rfindIdx (fun c => c = '.') p with
  | none => (p, [])
  | some di =>
    let fi : Nat :=
      match rfindIdx (fun c => c = '/') p with
      | some si => si + 1
      | none => 0
    if fi ≤ di then
      if ((p.take di).drop fi).any (fun c => c ≠ '.') then (p.take di, p.drop di)
      else (p, [])
    else (p, [])

/-- The output path of `export_to_csv`:
`f"{file_name}_{timestamp}{file_ext}"` where
`file_name, file_ext = os.path.splitext(base_output_path)` and the
timestamp is `datetime.now().strftime("%Y%m%d_%H%M%S")`, modelled as the
parameter `ts`. -/
def exportPath (base ts : Str) : Str :=
  (splitext base).1 ++ ('_' :: ts) ++ (splitext base).2

/-- Observable outcome of `export_to_csv`: the returned Bool, the path of
the file written (if any), and whether the empty-data warning printed. -/
structure ExportResult where
  success : Bool
  written : Option Str
  warnedEmpty : Bool
deriving DecidableEq

/-- `export_to_csv`: with no accumulated records, print the warning and
return `False` writing nothing; otherwise write the DataFrame to the
timestamped path (`writeOk` models whether `to_csv` raises), returning
`True` on success and `False` (no file) on an export error.  The pandas
two-decimal float formatting of the written file is outside the model. -/
def export_to_csv (data : List BillRec) (base ts : Str) (writeOk : Bool) : ExportResult :=
  if data = [] then ⟨false, none, true⟩
  else if writeOk then ⟨true, some (exportPath base ts), false⟩
  else ⟨false, none, false⟩

lemma process_pdf_fst (d : PdfDoc) (data : List BillRec) :
    (process_pdf d data).1 = docSucceeds d := by
  cases d with
  | openFail => rfl
  | pages ps =>
    by_cases h : ps.all (fun o => o.isSome) <;> simp [process_pdf, docSucceeds, h]

lemma process_pdf_len (d : PdfDoc) (data : List BillRec) :
    (process_pdf d data).2.length =
      data.length + (if docSucceeds d then 1 else 0) := by
  cases d with
  | openFail => rfl
  | pages ps =>
    by_cases h : ps.all (fun o => o.isSome) <;> simp [process_pdf, docSucceeds, h]

lemma process_directory_count (docs : List PdfDoc) :
    ∀ data, (process_directory docs data).1 = docs.countP docSucceeds ∧
      (process_directory docs data).2.length =
        data.length + docs.countP docSucceeds := by
  induction docs with
  | nil => intro data; simp [process_directory]
  | cons d ds ih =>
    intro data
    obtain ⟨ih1, ih2⟩ := ih (process_pdf d data).2
    have h1 := process_pdf_fst d data
    have h2 := process_pdf_len d data
    constructor
    · simp only [process_directory, ih1, h1, List.countP_cons]
      by_cases h : docSucceeds d <;> simp [h]
    · simp only [process_directory, ih2, h2, List.countP_cons]
      by_cases h : docSucceeds d <;> simp [h] <;> omega

/-- C5: batch processing never aborts on a document failure: for any
directory and initial state, every document is attempted, the reported
success count equals the number of individually processable documents,
and exactly one record is accumulated per success; in particular a
directory of three processable documents and one failing document yields
success count 3 and exactly 3 records. -/
theorem process_directory_never_aborts :
    (∀ docs data, (process_directory docs data).1 = docs.countP docSucceeds ∧
      (process_directory docs data).2.length =
        data.length + docs.countP docSucceeds) ∧
    (process_directory [sampleGoodDoc, sampleGoodDoc, sampleBadDoc, sampleGoodDoc] []).1 = 3 ∧
    (process_directory [sampleGoodDoc, sampleGoodDoc, sampleBadDoc, sampleGoodDoc] []).2.length = 3 := by
  refine ⟨process_directory_count, ?_, ?_⟩
  · have h := (process_directory_count
      [sampleGoodDoc, sampleGoodDoc, sampleBadDoc, sampleGoodDoc] []).1
    rw [h]; rfl
  · have h := (process_directory_count
      [sampleGoodDoc, sampleGoodDoc, sampleBadDoc, sampleGoodDoc] []).2
    rw [h]; rfl

/-- C9: per-document processing is atomic with respect to the record
list: whenever `process_pdf` reports failure, `self.data` is exactly what
it was before the document was attempted. -/
theorem process_pdf_atomic (doc : PdfDoc) (data : List BillRec) :
    (process_pdf doc data).1 = false → (process_pdf doc data).2 = data := by
  cases doc with
  | openFail => intro _; rfl
  | pages ps =>
    by_cases h : ps.all (fun o => o.isSome)
    · simp [process_pdf, h]
    · simp [process_pdf, h]

theorem process_pdf_atomic_witness :
    (process_pdf PdfDoc.openFail []).2 = [] :=
  process_pdf_atomic PdfDoc.openFail [] rfl

/-- C10: if any single page of a document yields no extractable text,
the whole document fails and contributes no record, regardless of the
other pages' texts. -/
theorem process_pdf_page_none (pre post : List (Option Str)) (data : List BillRec) :
    process_pdf (.pages (pre ++ none :: post)) data = (false, data) := by
  simp [process_pdf]

/-- C6: with an empty accumulated record list, export writes no file,
reports the empty-data warning, and returns the failure indicator. -/
theorem export_to_csv_empty (base ts : Str) (writeOk : Bool) :
    export_to_csv [] base ts writeOk = ⟨false, none, true⟩ := rfl

lemma splitext_append (p : Str) : (splitext p).1 ++ (splitext p).2 = p := by
  unfold splitext
  cases h : rfindIdx (fun c => c = '.') p with
  | none => simp
  | some di =>
    simp only []
    split
    · split
      · exact List.take_append_drop di p
      · simp
    · simp

/-- C7: the export path is the base path's stem, an underscore, the
generation timestamp (the source formats it with `"%Y%m%d_%H%M%S"`, i.e.
`YYYYMMDD_HHMMSS`), then the base path's extension; stem and extension
recompose the base path; and runs with distinct timestamps produce
distinct output paths, so a later run never reuses an earlier run's
output name. -/
theorem export_path_distinct (base ts1 ts2 : Str) :
    exportPath base ts1 = (splitext base).1 ++ ('_' :: ts1) ++ (splitext base).2 ∧
    (splitext base).1 ++ (splitext base).2 = base ∧
    (ts1 ≠ ts2 → exportPath base ts1 ≠ exportPath base ts2) := by
  refine ⟨rfl, splitext_append base, fun hne heq => hne ?_⟩
  unfold exportPath at heq
  rw [List.append_assoc, List.append_assoc] at heq
  have h1 := List.append_cancel_left heq
  rw [List.cons_append, List.cons_append] at h1
  have h2 := (List.cons.injEq _ _ _ _).mp h1
  exact List.append_cancel_right h2.2

theorem export_path_distinct_witness :
    exportPath ("out.csv".data) ("20240101_120000".data) ≠
      exportPath ("out.csv".data) ("20240101_120001".data) :=
  (export_path_distinct ("out.csv".data) ("20240101_120000".data)
    ("20240101_120001".data)).2.2 (by decide)

/-- C2: numeric normalization maps `None`, the empty string and the
literal dash silently to `0.0`; any other string has its commas removed
and is parsed as a float, a successful parse yielding the parsed value
with no warning and a failed parse yielding `0.0` with exactly one
warning; the function is total (it always returns a number). -/
theorem clean_numeric_value_spec (v : Option Str) :
    (v = none ∨ v = some [] ∨ v = some ['-'] → clean_numeric_value v = (0, 0)) ∧
    (∀ s, v = some s → s ≠ [] → s ≠ ['-'] →
      (∀ q, pyFloat (removeCommas s) = some q → clean_numeric_value v = (q, 0)) ∧
      (pyFloat (removeCommas s) = none → clean_numeric_value v = (0, 1))) := by
  constructor
  · rintro (rfl | rfl | rfl) <;> simp [clean_numeric_value]
  · rintro s rfl hne hnd
    have hcond : ¬(s = [] ∨ s = ['-']) := by
      rintro (h | h) <;> [exact hne h; exact hnd h]
    constructor
    · intro q hq; simp [clean_numeric_value, hcond, hq]
    · intro hq; simp [clean_numeric_value, hcond, hq]

theorem clean_numeric_value_spec_witness :
    clean_numeric_value (some ("N/A".data)) = (0, 1) :=
  ((clean_numeric_value_spec (some ("N/A".data))).2 _ rfl
    (by decide) (by decide)).2 (by
      rw [pyFloat, show pyFloatSyn (removeCommas ("N/A".data)) = none from by decide]; rfl)

/-- C3: VAT computation parses its input; on success it returns 15% of
the value rounded to two decimal places (so every returned value is an
integer number of hundredths), and on parse failure it returns `None`,
never zero; `"1000"` yields `150.0` and `"abc"` yields `None`. -/
theorem calculate_vat_spec :
    (∀ s q, pyFloat s = some q →
      calculate_vat s = some (round2 (q * (15 / 100)))) ∧
    (∀ s, pyFloat s = none → calculate_vat s = none) ∧
    (∀ s r, calculate_vat s = some r → ∃ n : ℤ, r = (n : ℚ) / 100) ∧
    calculate_vat ("1000".data) = some 150 ∧
    calculate_vat ("abc".data) = none := by
  have hsyn : pyFloatSyn ("1000".data) = some ⟨false, 1000, 0, 0, false, 0⟩ := by decide
  have h1000 : pyFloat ("1000".data) = some 1000 := by
    rw [pyFloat, hsyn]
    norm_num [Option.map, PyNum.toRat]
  have habc : pyFloat ("abc".data) = none := by
    rw [pyFloat, show pyFloatSyn ("abc".data) = none from by decide]; rfl
  refine ⟨?_, ?_, ?_, ?_, by simp [calculate_vat, habc]⟩
  · intro s q hq; simp [calculate_vat, hq]
  · intro s hq; simp [calculate_vat, hq]
  · intro s r hr
    unfold calculate_vat at hr
    cases h : pyFloat s with
    | none => rw [h] at hr; cases hr
    | some q =>
      rw [h] at hr
      refine ⟨roundHalfEven (q * (15 / 100) * 100), ?_⟩
      have heq : round2 (q * (15 / 100)) = r := by injection hr
      rw [← heq]; rfl
  · simp only [calculate_vat, h1000]
    have hre : roundHalfEven ((1000 : ℚ) * (15 / 100) * 100) = 15000 := by
      rw [show ((1000 : ℚ) * (15 / 100) * 100) = 15000 by norm_num, roundHalfEven]
      norm_num
    rw [show round2 ((1000 : ℚ) * (15 / 100)) = 150 by rw [round2, hre]; norm_num]

theorem calculate_vat_spec_witness :
    calculate_vat ("1000".data) = some (round2 ((1000 : ℚ) * (15 / 100))) :=
  calculate_vat_spec.1 ("1000".data) 1000 (by
    rw [pyFloat, show pyFloatSyn ("1000".data) = some ⟨false, 1000, 0, 0, false, 0⟩ from by decide]
    norm_num [Option.map, PyNum.toRat])

lemma dropWhile_dropWhile (pr : Char → Bool) (l : Str) :
    (l.dropWhile pr).dropWhile pr = l.dropWhile pr := by
  induction l with
  | nil => rfl
  | cons c t ih =>
    by_cases h : pr c
    · simpa [List.dropWhile_cons, h] using ih
    · simp [List.dropWhile_cons, h]

lemma stripEnd_stripEnd (l : Str) : stripEnd (stripEnd l) = stripEnd l := by
  induction l with
  | nil => rfl
  | cons c t ih =>
    cases h : stripEnd t with
    | nil => by_cases hc : isPySpace c <;> simp [stripEnd, h, hc]
    | cons d r =>
      rw [h] at ih
      rw [show stripEnd (c :: t) = c :: d :: r from by rw [stripEnd, h],
        show stripEnd (c :: d :: r) = c :: d :: r from by rw [stripEnd, ih]]

lemma dropWhile_stripEnd (l : Str) :
    (stripEnd l).dropWhile isPySpace = stripEnd (l.dropWhile isPySpace) := by
  induction l with
  | nil => rfl
  | cons c t ih =>
    by_cases hc : isPySpace c
    · cases h : stripEnd t with
      | nil => simp [stripEnd, h, hc, List.dropWhile_cons, ← ih]
      | cons d r => simp [stripEnd, h, hc, List.dropWhile_cons, ← ih]
    · cases h : stripEnd t with
      | nil => simp [stripEnd, h, hc, List.dropWhile_cons]
      | cons d r => simp [stripEnd, h, hc, List.dropWhile_cons]

lemma pyStrip_pyStrip (l : Str) : pyStrip (pyStrip l) = pyStrip l := by
  unfold pyStrip
  rw [dropWhile_stripEnd, dropWhile_dropWhile, stripEnd_stripEnd]

lemma extract_value_strip (text : Str) (p : Re) (s : Str)
    (h : extract_value text p = some s) : pyStrip s = s := by
  unfold extract_value at h
  cases hr : reSearch p text with
  | none => rw [hr] at h; cases h
  | some r =>
    obtain ⟨i, st⟩ := r
    rw [hr] at h
    cases hg : st.g1 with
    | none =>
      simp only [hg] at h
      cases h
    | some ab =>
      obtain ⟨a, b⟩ := ab
      simp only [hg] at h
      injection h with h
      rw [← h, pyStrip_pyStrip]

lemma clean_customer_name_eq (text : Str) :
    clean_customer_name text = extract_value text patCleanName := rfl

/-- `lits` over an explicit character list. -/
def listLits (l : Str) : Re := l.foldr (fun c r => Re.seq (.lit c) r) .eps

lemma mrun_lit_yes (c : Char) (cs : Str) (st : MSt) (k : MSt → Option MSt) {d : Char}
    (hg : cs.get? st.pos = some d) (hc : d.toLower = c.toLower) :
    mrun (.lit c) cs st k = k ⟨st.pos + 1, st.g1⟩ := by
  have e : mrun (.lit c) cs st k =
      match cs.get? st.pos with
      | some d' => if d'.toLower = c.toLower then k ⟨st.pos + 1, st.g1⟩ else none
      | none => none := rfl
  rw [e, hg]
  show (if d.toLower = c.toLower then k ⟨st.pos + 1, st.g1⟩ else none) = k ⟨st.pos + 1, st.g1⟩
  rw [if_pos hc]

lemma mrun_lit_no (c : Char) (cs : Str) (st : MSt) (k : MSt → Option MSt) {d : Char}
    (hg : cs.get? st.pos = some d) (hc : ¬d.toLower = c.toLower) :
    mrun (.lit c) cs st k = none := by
  have e : mrun (.lit c) cs st k =
      match cs.get? st.pos with
      | some d' => if d'.toLower = c.toLower then k ⟨st.pos + 1, st.g1⟩ else none
      | none => none := rfl
  rw [e, hg]
  show (if d.toLower = c.toLower then k ⟨st.pos + 1, st.g1⟩ else none) = none
  rw [if_neg hc]

lemma mrun_lit_end (c : Char) (cs : Str) (st : MSt) (k : MSt → Option MSt)
    (hg : cs.get? st.pos = none) :
    mrun (.lit c) cs st k = none := by
  have e : mrun (.lit c) cs st k =
      match cs.get? st.pos with
      | some d' => if d'.toLower = c.toLower then k ⟨st.pos + 1, st.g1⟩ else none
      | none => none := rfl
  rw [e, hg]

lemma mrun_cls_yes (q : Char → Bool) (cs : Str) (st : MSt) (k : MSt → Option MSt) {d : Char}
    (hg : cs.get? st.pos = some d) (hc : clsMatch q d = true) :
    mrun (.cls q) cs st k = k ⟨st.pos + 1, st.g1⟩ := by
  have e : mrun (.cls q) cs st k =
      match cs.get? st.pos with
      | some d' => if clsMatch q d' then k ⟨st.pos + 1, st.g1⟩ else none
      | none => none := rfl
  rw [e, hg]
  show (if clsMatch q d then k ⟨st.pos + 1, st.g1⟩ else none) = k ⟨st.pos + 1, st.g1⟩
  rw [if_pos hc]

lemma mrun_alt_fst (a b : Re) (cs : Str) (st : MSt) (k : MSt → Option MSt) {r : MSt}
    (h : mrun a cs st k = some r) : mrun (.alt a b) cs st k = some r := by
  have e : mrun (.alt a b) cs st k =
      match mrun a cs st k with
      | some r' => some r'
      | none => mrun b cs st k := rfl
  rw [e, h]

lemma mrun_alt_snd (a b : Re) (cs : Str) (st : MSt) (k : MSt → Option MSt)
    (h : mrun a cs st k = none) : mrun (.alt a b) cs st k = mrun b cs st k := by
  have e : mrun (.alt a b) cs st k =
      match mrun a cs st k with
      | some r' => some r'
      | none => mrun b cs st k := rfl
  rw [e, h]

lemma mrun_alt_none (a b : Re) (cs : Str) (st : MSt) (k : MSt → Option MSt)
    (h1 : mrun a cs st k = none) (h2 : mrun b cs st k = none) :
    mrun (.alt a b) cs st k = none := by
  have e : mrun (.alt a b) cs st k =
      match mrun a cs st k with
      | some r' => some r'
      | none => mrun b cs st k := rfl
  rw [e, h1, h2]

lemma mrun_eos_yes (cs : Str) (st : MSt) (k : MSt → Option MSt) (h : st.pos = cs.length) :
    mrun .eos cs st k = k st := by
  have e : mrun .eos cs st k =
      if st.pos = cs.length ∨ (st.pos + 1 = cs.length ∧ cs.get? st.pos = some '\n') then k st
      else none := rfl
  rw [e, if_pos (Or.inl h)]

lemma mrun_eos_no (cs : Str) (st : MSt) (k : MSt → Option MSt) {c : Char}
    (hg : cs.get? st.pos = some c) (hc : c ≠ '\n') :
    mrun .eos cs st k = none := by
  have hlt : st.pos < cs.length := by
    by_contra hcon
    rw [List.get?_eq_none.mpr (by omega)] at hg
    cases hg
  have e : mrun .eos cs st k =
      if st.pos = cs.length ∨ (st.pos + 1 = cs.length ∧ cs.get? st.pos = some '\n') then k st
      else none := rfl
  rw [e, if_neg (by
    rintro (h1 | ⟨h2, h3⟩)
    · omega
    · rw [hg] at h3
      injection h3 with h3
      exact hc h3)]

lemma mrun_seq_assoc (a b c' : Re) (cs : Str) (st : MSt) (k : MSt → Option MSt) :
    mrun (.seq (.seq a b) c') cs st k = mrun (.seq a (.seq b c')) cs st k := rfl

lemma repRun_lazy_some (q : Char → Bool) (cs : Str) (k : MSt → Option MSt) (st : MSt) {r : MSt}
    (h : k st = some r) (n : Nat) : repRun q true cs k st n = some r := by
  cases n with
  | zero => exact h
  | succ n =>
    have e : repRun q true cs k st (n + 1) =
        match k st with
        | some r' => some r'
        | none =>
          match cs.get? st.pos with
          | some d => if clsMatch q d then repRun q true cs k ⟨st.pos + 1, st.g1⟩ n else none
          | none => none := rfl
    rw [e, h]

lemma repRun_greedy_end (q : Char → Bool) (cs : Str) (k : MSt → Option MSt) (st : MSt)
    (hg : cs.get? st.pos = none) (n : Nat) : repRun q false cs k st n = k st := by
  cases n with
  | zero => rfl
  | succ n =>
    have e : repRun q false cs k st (n + 1) =
        match (match cs.get? st.pos with
          | some d => if clsMatch q d then repRun q false cs k ⟨st.pos + 1, st.g1⟩ n else none
          | none => none) with
        | some r => some r
        | none => k st := rfl
    rw [e, hg]

lemma repRun_greedy_noc (q : Char → Bool) (cs : Str) (k : MSt → Option MSt) (st : MSt) {d : Char}
    (hg : cs.get? st.pos = some d) (hc : clsMatch q d = false) (n : Nat) :
    repRun q false cs k st n = k st := by
  cases n with
  | zero => rfl
  | succ n =>
    have e : repRun q false cs k st (n + 1) =
        match (match cs.get? st.pos with
          | some d' => if clsMatch q d' then repRun q false cs k ⟨st.pos + 1, st.g1⟩ n else none
          | none => none) with
        | some r => some r
        | none => k st := rfl
    rw [e, hg]
    show (match (if clsMatch q d = true then repRun q false cs k ⟨st.pos + 1, st.g1⟩ n else none) with
      | some r => some r
      | none => k st) = k st
    rw [hc, if_neg Bool.false_ne_true]

lemma repRun_greedy_one (q : Char → Bool) (cs : Str) (k : MSt → Option MSt) (st st1 : MSt)
    {d0 d1 : Char}
    (hg0 : cs.get? st.pos = some d0) (hc0 : clsMatch q d0 = true)
    (hst1 : st1 = ⟨st.pos + 1, st.g1⟩)
    (hg1 : cs.get? st1.pos = some d1) (hc1 : clsMatch q d1 = false)
    (hlt : st.pos < cs.length) :
    repRun q false cs k st (cs.length - st.pos) =
      match k st1 with
      | some r => some r
      | none => k st := by
  obtain ⟨m, hm⟩ : ∃ m, cs.length - st.pos = m + 1 := ⟨cs.length - st.pos - 1, by omega⟩
  rw [hm]
  have e : repRun q false cs k st (m + 1) =
      match (match cs.get? st.pos with
        | some d' => if clsMatch q d' then repRun q false cs k ⟨st.pos + 1, st.g1⟩ m else none
        | none => none) with
      | some r => some r
      | none => k st := rfl
  rw [e, hg0]
  show (match (if clsMatch q d0 = true then repRun q false cs k ⟨st.pos + 1, st.g1⟩ m else none) with
    | some r => some r
    | none => k st) =
    match k st1 with
    | some r => some r
    | none => k st
  rw [if_pos hc0, ← hst1, repRun_greedy_noc q cs k st1 hg1 hc1 m]

lemma repRun_lazy_chain (q : Char → Bool) (cs : Str) (k : MSt → Option MSt) :
    ∀ (t : Nat) (st : MSt) (n : Nat),
      (∀ j, j < t → k ⟨st.pos + j, st.g1⟩ = none) →
      (∀ j, j < t → ∃ d, cs.get? (st.pos + j) = some d ∧ clsMatch q d = true) →
      t ≤ n →
      repRun q true cs k st n = repRun q true cs k ⟨st.pos + t, st.g1⟩ (n - t) := by
  intro t
  induction t with
  | zero => intro st n _ _ _; rfl
  | succ t ih =>
    intro st n hk hcls hle
    obtain ⟨m, rfl⟩ : ∃ m, n = m + 1 := ⟨n - 1, by omega⟩
    have h0 : k st = none := hk 0 (by omega)
    obtain ⟨d, hgd, hcd⟩ := hcls 0 (by omega)
    have hgd0 : cs.get? st.pos = some d := hgd
    have e : repRun q true cs k st (m + 1) =
        match k st with
        | some r' => some r'
        | none =>
          match cs.get? st.pos with
          | some d' => if clsMatch q d' then repRun q true cs k ⟨st.pos + 1, st.g1⟩ m else none
          | none => none := rfl
    rw [e, h0, hgd0]
    show (if clsMatch q d = true then repRun q true cs k ⟨st.pos + 1, st.g1⟩ m else none) =
      repRun q true cs k ⟨st.pos + (t + 1), st.g1⟩ (m + 1 - (t + 1))
    rw [if_pos hcd,
      show st.pos + (t + 1) = st.pos + 1 + t from by omega,
      show m + 1 - (t + 1) = m - t from by omega]
    exact ih ⟨st.pos + 1, st.g1⟩ m
      (fun j hj => by
        have hh := hk (j + 1) (by omega)
        rwa [show st.pos + (j + 1) = st.pos + 1 + j from by omega] at hh)
      (fun j hj => by
        obtain ⟨d', hg', hc'⟩ := hcls (j + 1) (by omega)
        exact ⟨d', by rwa [show st.pos + (j + 1) = st.pos + 1 + j from by omega] at hg', hc'⟩)
      (by omega)

lemma seq_cls_step (q : Char → Bool) (cs : Str) (st : MSt) (k : MSt → Option MSt) (R : Re)
    {d : Char} (hg : cs.get? st.pos = some d) (hc : clsMatch q d = true) :
    mrun (.seq (.cls q) R) cs st k = mrun R cs ⟨st.pos + 1, st.g1⟩ k := by
  show mrun (.cls q) cs st (fun s => mrun R cs s k) = mrun R cs ⟨st.pos + 1, st.g1⟩ k
  rw [mrun_cls_yes q cs st _ hg hc]

lemma seq_rep_noc (q : Char → Bool) (cs : Str) (st : MSt) (k : MSt → Option MSt) (R : Re)
    {d : Char} (hg : cs.get? st.pos = some d) (hc : clsMatch q d = false) :
    mrun (.seq (.rep q false) R) cs st k = mrun R cs st k := by
  show repRun q false cs (fun s => mrun R cs s k) st (cs.length - st.pos) = mrun R cs st k
  rw [repRun_greedy_noc q cs _ st hg hc]

lemma seq_rep_end (q : Char → Bool) (cs : Str) (st : MSt) (k : MSt → Option MSt) (R : Re)
    (hg : cs.get? st.pos = none) :
    mrun (.seq (.rep q false) R) cs st k = mrun R cs st k := by
  show repRun q false cs (fun s => mrun R cs s k) st (cs.length - st.pos) = mrun R cs st k
  rw [repRun_greedy_end q cs _ st hg]

lemma seq_rep_one (q : Char → Bool) (cs : Str) (st st1 : MSt) (k : MSt → Option MSt) (R : Re)
    {d0 d1 : Char}
    (hg0 : cs.get? st.pos = some d0) (hc0 : clsMatch q d0 = true)
    (hst1 : st1 = ⟨st.pos + 1, st.g1⟩)
    (hg1 : cs.get? st1.pos = some d1) (hc1 : clsMatch q d1 = false)
    (hlt : st.pos < cs.length) :
    mrun (.seq (.rep q false) R) cs st k =
      match mrun R cs st1 k with
      | some r => some r
      | none => mrun R cs st k := by
  show repRun q false cs (fun s => mrun R cs s k) st (cs.length - st.pos) = _
  rw [repRun_greedy_one q cs _ st st1 hg0 hc0 hst1 hg1 hc1 hlt]

lemma lits_run_bare :
    ∀ (l : Str) (cs : Str) (st : MSt) (k : MSt → Option MSt),
      (∀ j, j < l.length →
        ∃ d, cs.get? (st.pos + j) = some d ∧ d.toLower = (l.getD j ' ').toLower) →
      mrun (listLits l) cs st k = k ⟨st.pos + l.length, st.g1⟩ := by
  intro l
  induction l with
  | nil => intro cs st k _; rfl
  | cons c l ih =>
    intro cs st k h
    obtain ⟨d, hgd, hcd⟩ := h 0 (by simp)
    show mrun (.lit c) cs st (fun s => mrun (listLits l) cs s k) =
      k ⟨st.pos + (l.length + 1), st.g1⟩
    rw [mrun_lit_yes c cs st _ hgd hcd,
      show st.pos + (l.length + 1) = st.pos + 1 + l.length from by omega]
    exact ih cs ⟨st.pos + 1, st.g1⟩ k (fun j hj => by
      obtain ⟨d', hg', hc'⟩ := h (j + 1) (by simp only [List.length_cons]; omega)
      exact ⟨d', by rwa [show st.pos + (j + 1) = st.pos + 1 + j from by omega] at hg', hc'⟩)

lemma seq_listLits_run (l : Str) (cs : Str) (st : MSt) (k : MSt → Option MSt) (X : Re)
    (h : ∀ j, j < l.length →
      ∃ d, cs.get? (st.pos + j) = some d ∧ d.toLower = (l.getD j ' ').toLower) :
    mrun (.seq (listLits l) X) cs st k = mrun X cs ⟨st.pos + l.length, st.g1⟩ k := by
  show mrun (listLits l) cs st (fun s => mrun X cs s k) = mrun X cs ⟨st.pos + l.length, st.g1⟩ k
  rw [lits_run_bare l cs st _ h]

lemma listLits_no (c : Char) (l : Str) (cs : Str) (st : MSt) (k : MSt → Option MSt) {d : Char}
    (hg : cs.get? st.pos = some d) (hc : ¬d.toLower = c.toLower) :
    mrun (listLits (c :: l)) cs st k = none := by
  show mrun (.lit c) cs st (fun s => mrun (listLits l) cs s k) = none
  exact mrun_lit_no c cs st _ hg hc

lemma listLits_end (c : Char) (l : Str) (cs : Str) (st : MSt) (k : MSt → Option MSt)
    (hg : cs.get? st.pos = none) :
    mrun (listLits (c :: l)) cs st k = none := by
  show mrun (.lit c) cs st (fun s => mrun (listLits l) cs s k) = none
  exact mrun_lit_end c cs st _ hg

lemma searchFrom_first (p : Re) (cs : Str) (i : Nat) (st : MSt)
    (hm : matchAt p cs i = some st) :
    ∀ fuel i0, i0 ≤ i → i < i0 + fuel → (∀ m, i0 ≤ m → m < i → matchAt p cs m = none) →
      searchFrom p cs i0 fuel = some (i, st) := by
  intro fuel
  induction fuel with
  | zero => intro i0 h1 h2 _; exact absurd h2 (by omega)
  | succ fuel ih =>
    intro i0 h1 h2 hn
    simp only [searchFrom]
    by_cases h0 : i0 = i
    · subst h0
      rw [hm]
    · rw [hn i0 (le_refl _) (by omega)]
      exact ih (i0 + 1) (by omega) (by omega) (fun m hm1 hm2 => hn m (by omega) hm2)

lemma reSearch_first (p : Re) (cs : Str) (i : Nat) (st : MSt)
    (hm : matchAt p cs i = some st) (hnone : ∀ m, m < i → matchAt p cs m = none)
    (hle : i ≤ cs.length) :
    reSearch p cs = some (i, st) :=
  searchFrom_first p cs i st hm (cs.length + 1) 0 (by omega) (by omega)
    (fun m _ hm2 => hnone m hm2)

lemma clean_customer_name_eq_of (cs : Str) (i : Nat) (st : MSt) (a b : Nat)
    (h : reSearch patCleanName cs = some (i, st)) (hg : st.g1 = some (a, b)) :
    clean_customer_name cs = some (pyStrip (slice cs a b)) := by
  unfold clean_customer_name
  rw [h]
  simp only [hg]

lemma get?_append_mid (pre mid : Str) (j : Nat) :
    (pre ++ mid).get? (pre.length + j) = mid.get? j := by
  rw [List.get?_append_right (by omega)]
  congr 1
  omega

lemma slice_eq (cs w : Str) (a : Nat) (hlen : a + w.length ≤ cs.length)
    (hw : ∀ j, j < w.length → cs.get? (a + j) = w.get? j) :
    slice cs a (a + w.length) = w := by
  apply List.ext
  intro n
  show ((cs.take (a + w.length)).drop a).get? n = w.get? n
  rw [show ((cs.take (a + w.length)).drop a).get? n = (cs.take (a + w.length)).get? (a + n) from
    by rw [List.get?_drop]]
  by_cases hn : n < w.length
  · rw [List.get?_take (by omega)]
    exact hw n hn
  · rw [List.get?_eq_none.mpr (by rw [List.length_take]; omega),
      List.get?_eq_none.mpr (show w.length ≤ n from by omega)]

/-- The tail of `patCleanName` after the capture group: `(?:\s*FAX|\s*$)`,
with the literals unfolded. -/
def patTailA : Re :=
  .alt (.seq (.rep isPySpace false) (listLits ['F', 'A', 'X']))
    (.seq (.rep isPySpace false) .eos)

lemma patCleanName_eq :
    patCleanName = .seq (listLits ['N', 'A', 'M', 'E'])
      (.seq (.seq (.cls isPySpace) (.rep isPySpace false))
        (.seq (.grp (.seq (.cls nameCls) (.rep nameCls true))) patTailA)) := rfl

lemma nameMatch (cs : Str) (i₀ : Nat)
    (H1 : ∀ j, j < 20 → cs.get? (i₀ + j) = ("NAME JOHN SMITH & CO".data).get? j)
    (Hlen : i₀ + 20 ≤ cs.length)
    (res : MSt)
    (H3 : mrun patTailA cs ⟨i₀ + 20, some (i₀ + 5, i₀ + 20)⟩ some = some res) :
    matchAt patCleanName cs i₀ = some res := by
  have g0 : cs.get? (i₀ + 0) = some 'N' := (H1 0 (by omega)).trans rfl
  have g1 : cs.get? (i₀ + 1) = some 'A' := (H1 1 (by omega)).trans rfl
  have g2 : cs.get? (i₀ + 2) = some 'M' := (H1 2 (by omega)).trans rfl
  have g3 : cs.get? (i₀ + 3) = some 'E' := (H1 3 (by omega)).trans rfl
  have g4 : cs.get? (i₀ + 4) = some ' ' := (H1 4 (by omega)).trans rfl
  have g5 : cs.get? (i₀ + 5) = some 'J' := (H1 5 (by omega)).trans rfl
  have g6 : cs.get? (i₀ + 6) = some 'O' := (H1 6 (by omega)).trans rfl
  have g7 : cs.get? (i₀ + 7) = some 'H' := (H1 7 (by omega)).trans rfl
  have g8 : cs.get? (i₀ + 8) = some 'N' := (H1 8 (by omega)).trans rfl
  have g9 : cs.get? (i₀ + 9) = some ' ' := (H1 9 (by omega)).trans rfl
  have g10 : cs.get? (i₀ + 10) = some 'S' := (H1 10 (by omega)).trans rfl
  have g11 : cs.get? (i₀ + 11) = some 'M' := (H1 11 (by omega)).trans rfl
  have g12 : cs.get? (i₀ + 12) = some 'I' := (H1 12 (by omega)).trans rfl
  have g13 : cs.get? (i₀ + 13) = some 'T' := (H1 13 (by omega)).trans rfl
  have g14 : cs.get? (i₀ + 14) = some 'H' := (H1 14 (by omega)).trans rfl
  have g15 : cs.get? (i₀ + 15) = some ' ' := (H1 15 (by omega)).trans rfl
  have g16 : cs.get? (i₀ + 16) = some '&' := (H1 16 (by omega)).trans rfl
  have g17 : cs.get? (i₀ + 17) = some ' ' := (H1 17 (by omega)).trans rfl
  have g18 : cs.get? (i₀ + 18) = some 'C' := (H1 18 (by omega)).trans rfl
  have g19 : cs.get? (i₀ + 19) = some 'O' := (H1 19 (by omega)).trans rfl
  have f0 : mrun patTailA cs ⟨i₀ + 6, some (i₀ + 5, i₀ + 6)⟩ some = none := by
    apply mrun_alt_none
    · rw [seq_rep_noc isPySpace cs ⟨i₀ + 6, some (i₀ + 5, i₀ + 6)⟩ some _ g6 (by decide)]
      exact listLits_no 'F' ['A', 'X'] cs _ some g6 (by decide)
    · rw [seq_rep_noc isPySpace cs ⟨i₀ + 6, some (i₀ + 5, i₀ + 6)⟩ some _ g6 (by decide)]
      exact mrun_eos_no cs _ some g6 (by decide)
  have f1 : mrun patTailA cs ⟨i₀ + 7, some (i₀ + 5, i₀ + 7)⟩ some = none := by
    apply mrun_alt_none
    · rw [seq_rep_noc isPySpace cs ⟨i₀ + 7, some (i₀ + 5, i₀ + 7)⟩ some _ g7 (by decide)]
      exact listLits_no 'F' ['A', 'X'] cs _ some g7 (by decide)
    · rw [seq_rep_noc isPySpace cs ⟨i₀ + 7, some (i₀ + 5, i₀ + 7)⟩ some _ g7 (by decide)]
      exact mrun_eos_no cs _ some g7 (by decide)
  have f2 : mrun patTailA cs ⟨i₀ + 8, some (i₀ + 5, i₀ + 8)⟩ some = none := by
    apply mrun_alt_none
    · rw [seq_rep_noc isPySpace cs ⟨i₀ + 8, some (i₀ + 5, i₀ + 8)⟩ some _ g8 (by decide)]
      exact listLits_no 'F' ['A', 'X'] cs _ some g8 (by decide)
    · rw [seq_rep_noc isPySpace cs ⟨i₀ + 8, some (i₀ + 5, i₀ + 8)⟩ some _ g8 (by decide)]
      exact mrun_eos_no cs _ some g8 (by decide)
  have f3 : mrun patTailA cs ⟨i₀ + 9, some (i₀ + 5, i₀ + 9)⟩ some = none := by
    apply mrun_alt_none
    · rw [seq_rep_one isPySpace cs ⟨i₀ + 9, some (i₀ + 5, i₀ + 9)⟩
        ⟨i₀ + 10, some (i₀ + 5, i₀ + 9)⟩ some _ g9 (by decide) rfl g10 (by decide)
        (show i₀ + 9 < cs.length from by omega)]
      rw [listLits_no 'F' ['A', 'X'] cs ⟨i₀ + 10, some (i₀ + 5, i₀ + 9)⟩ some g10 (by decide)]
      show mrun (listLits ['F', 'A', 'X']) cs ⟨i₀ + 9, some (i₀ + 5, i₀ + 9)⟩ some = none
      exact listLits_no 'F' ['A', 'X'] cs _ some g9 (by decide)
    · rw [seq_rep_one isPySpace cs ⟨i₀ + 9, some (i₀ + 5, i₀ + 9)⟩
        ⟨i₀ + 10, some (i₀ + 5, i₀ + 9)⟩ some _ g9 (by decide) rfl g10 (by decide)
        (show i₀ + 9 < cs.length from by omega)]
      rw [mrun_eos_no cs ⟨i₀ + 10, some (i₀ + 5, i₀ + 9)⟩ some g10 (by decide)]
      show mrun Re.eos cs ⟨i₀ + 9, some (i₀ + 5, i₀ + 9)⟩ some = none
      exact mrun_eos_no cs _ some g9 (by decide)
  have f4 : mrun patTailA cs ⟨i₀ + 10, some (i₀ + 5, i₀ + 10)⟩ some = none := by
    apply mrun_alt_none
    · rw [seq_rep_noc isPySpace cs ⟨i₀ + 10, some (i₀ + 5, i₀ + 10)⟩ some _ g10 (by decide)]
      exact listLits_no 'F' ['A', 'X'] cs _ some g10 (by decide)
    · rw [seq_rep_noc isPySpace cs ⟨i₀ + 10, some (i₀ + 5, i₀ + 10)⟩ some _ g10 (by decide)]
      exact mrun_eos_no cs _ some g10 (by decide)
  have f5 : mrun patTailA cs ⟨i₀ + 11, some (i₀ + 5, i₀ + 11)⟩ some = none := by
    apply mrun_alt_none
    · rw [seq_rep_noc isPySpace cs ⟨i₀ + 11, some (i₀ + 5, i₀ + 11)⟩ some _ g11 (by decide)]
      exact listLits_no 'F' ['A', 'X'] cs _ some g11 (by decide)
    · rw [seq_rep_noc isPySpace cs ⟨i₀ + 11, some (i₀ + 5, i₀ + 11)⟩ some _ g11 (by decide)]
      exact mrun_eos_no cs _ some g11 (by decide)
  have f6 : mrun patTailA cs ⟨i₀ + 12, some (i₀ + 5, i₀ + 12)⟩ some = none := by
    apply mrun_alt_none
    · rw [seq_rep_noc isPySpace cs ⟨i₀ + 12, some (i₀ + 5, i₀ + 12)⟩ some _ g12 (by decide)]
      exact listLits_no 'F' ['A', 'X'] cs _ some g12 (by decide)
    · rw [seq_rep_noc isPySpace cs ⟨i₀ + 12, some (i₀ + 5, i₀ + 12)⟩ some _ g12 (by decide)]
      exact mrun_eos_no cs _ some g12 (by decide)
  have f7 : mrun patTailA cs ⟨i₀ + 13, some (i₀ + 5, i₀ + 13)⟩ some = none := by
    apply mrun_alt_none
    · rw [seq_rep_noc isPySpace cs ⟨i₀ + 13, some (i₀ + 5, i₀ + 13)⟩ some _ g13 (by decide)]
      exact listLits_no 'F' ['A', 'X'] cs _ some g13 (by decide)
    · rw [seq_rep_noc isPySpace cs ⟨i₀ + 13, some (i₀ + 5, i₀ + 13)⟩ some _ g13 (by decide)]
      exact mrun_eos_no cs _ some g13 (by decide)
  have f8 : mrun patTailA cs ⟨i₀ + 14, some (i₀ + 5, i₀ + 14)⟩ some = none := by
    apply mrun_alt_none
    · rw [seq_rep_noc isPySpace cs ⟨i₀ + 14, some (i₀ + 5, i₀ + 14)⟩ some _ g14 (by decide)]
      exact listLits_no 'F' ['A', 'X'] cs _ some g14 (by decide)
    · rw [seq_rep_noc isPySpace cs ⟨i₀ + 14, some (i₀ + 5, i₀ + 14)⟩ some _ g14 (by decide)]
      exact mrun_eos_no cs _ some g14 (by decide)
  have f9 : mrun patTailA cs ⟨i₀ + 15, some (i₀ + 5, i₀ + 15)⟩ some = none := by
    apply mrun_alt_none
    · rw [seq_rep_one isPySpace cs ⟨i₀ + 15, some (i₀ + 5, i₀ + 15)⟩
        ⟨i₀ + 16, some (i₀ + 5, i₀ + 15)⟩ some _ g15 (by decide) rfl g16 (by decide)
        (show i₀ + 15 < cs.length from by omega)]
      rw [listLits_no 'F' ['A', 'X'] cs ⟨i₀ + 16, some (i₀ + 5, i₀ + 15)⟩ some g16 (by decide)]
      show mrun (listLits ['F', 'A', 'X']) cs ⟨i₀ + 15, some (i₀ + 5, i₀ + 15)⟩ some = none
      exact listLits_no 'F' ['A', 'X'] cs _ some g15 (by decide)
    · rw [seq_rep_one isPySpace cs ⟨i₀ + 15, some (i₀ + 5, i₀ + 15)⟩
        ⟨i₀ + 16, some (i₀ + 5, i₀ + 15)⟩ some _ g15 (by decide) rfl g16 (by decide)
        (show i₀ + 15 < cs.length from by omega)]
      rw [mrun_eos_no cs ⟨i₀ + 16, some (i₀ + 5, i₀ + 15)⟩ some g16 (by decide)]
      show mrun Re.eos cs ⟨i₀ + 15, some (i₀ + 5, i₀ + 15)⟩ some = none
      exact mrun_eos_no cs _ some g15 (by decide)
  have f10 : mrun patTailA cs ⟨i₀ + 16, some (i₀ + 5, i₀ + 16)⟩ some = none := by
    apply mrun_alt_none
    · rw [seq_rep_noc isPySpace cs ⟨i₀ + 16, some (i₀ + 5, i₀ + 16)⟩ some _ g16 (by decide)]
      exact listLits_no 'F' ['A', 'X'] cs _ some g16 (by decide)
    · rw [seq_rep_noc isPySpace cs ⟨i₀ + 16, some (i₀ + 5, i₀ + 16)⟩ some _ g16 (by decide)]
      exact mrun_eos_no cs _ some g16 (by decide)
  have f11 : mrun patTailA cs ⟨i₀ + 17, some (i₀ + 5, i₀ + 17)⟩ some = none := by
    apply mrun_alt_none
    · rw [seq_rep_one isPySpace cs ⟨i₀ + 17, some (i₀ + 5, i₀ + 17)⟩
        ⟨i₀ + 18, some (i₀ + 5, i₀ + 17)⟩ some _ g17 (by decide) rfl g18 (by decide)
        (show i₀ + 17 < cs.length from by omega)]
      rw [listLits_no 'F' ['A', 'X'] cs ⟨i₀ + 18, some (i₀ + 5, i₀ + 17)⟩ some g18 (by decide)]
      show mrun (listLits ['F', 'A', 'X']) cs ⟨i₀ + 17, some (i₀ + 5, i₀ + 17)⟩ some = none
      exact listLits_no 'F' ['A', 'X'] cs _ some g17 (by decide)
    · rw [seq_rep_one isPySpace cs ⟨i₀ + 17, some (i₀ + 5, i₀ + 17)⟩
        ⟨i₀ + 18, some (i₀ + 5, i₀ + 17)⟩ some _ g17 (by decide) rfl g18 (by decide)
        (show i₀ + 17 < cs.length from by omega)]
      rw [mrun_eos_no cs ⟨i₀ + 18, some (i₀ + 5, i₀ + 17)⟩ some g18 (by decide)]
      show mrun Re.eos cs ⟨i₀ + 17, some (i₀ + 5, i₀ + 17)⟩ some = none
      exact mrun_eos_no cs _ some g17 (by decide)
  have f12 : mrun patTailA cs ⟨i₀ + 18, some (i₀ + 5, i₀ + 18)⟩ some = none := by
    apply mrun_alt_none
    · rw [seq_rep_noc isPySpace cs ⟨i₀ + 18, some (i₀ + 5, i₀ + 18)⟩ some _ g18 (by decide)]
      exact listLits_no 'F' ['A', 'X'] cs _ some g18 (by decide)
    · rw [seq_rep_noc isPySpace cs ⟨i₀ + 18, some (i₀ + 5, i₀ + 18)⟩ some _ g18 (by decide)]
      exact mrun_eos_no cs _ some g18 (by decide)
  have f13 : mrun patTailA cs ⟨i₀ + 19, some (i₀ + 5, i₀ + 19)⟩ some = none := by
    apply mrun_alt_none
    · rw [seq_rep_noc isPySpace cs ⟨i₀ + 19, some (i₀ + 5, i₀ + 19)⟩ some _ g19 (by decide)]
      exact listLits_no 'F' ['A', 'X'] cs _ some g19 (by decide)
    · rw [seq_rep_noc isPySpace cs ⟨i₀ + 19, some (i₀ + 5, i₀ + 19)⟩ some _ g19 (by decide)]
      exact mrun_eos_no cs _ some g19 (by decide)
  have hNAME : ∀ j, j < (['N', 'A', 'M', 'E'] : Str).length →
      ∃ d, cs.get? ((⟨i₀, none⟩ : MSt).pos + j) = some d ∧
        d.toLower = ((['N', 'A', 'M', 'E'] : Str).getD j ' ').toLower := by
    intro j hj
    have hj4 : j < 4 := hj
    interval_cases j
    · exact ⟨'N', g0, rfl⟩
    · exact ⟨'A', g1, rfl⟩
    · exact ⟨'M', g2, rfl⟩
    · exact ⟨'E', g3, rfl⟩
  have hfail : ∀ j, j < 14 →
      mrun patTailA cs ⟨i₀ + 6 + j, some (i₀ + 5, i₀ + 6 + j)⟩ some = none := by
    intro j hj
    interval_cases j
    exacts [f0, f1, f2, f3, f4, f5, f6, f7, f8, f9, f10, f11, f12, f13]
  have hcls : ∀ j, j < 14 →
      ∃ d, cs.get? (i₀ + 6 + j) = some d ∧ clsMatch nameCls d = true := by
    intro j hj
    interval_cases j
    exacts [⟨'O', g6, by decide⟩, ⟨'H', g7, by decide⟩, ⟨'N', g8, by decide⟩,
      ⟨' ', g9, by decide⟩, ⟨'S', g10, by decide⟩, ⟨'M', g11, by decide⟩,
      ⟨'I', g12, by decide⟩, ⟨'T', g13, by decide⟩, ⟨'H', g14, by decide⟩,
      ⟨' ', g15, by decide⟩, ⟨'&', g16, by decide⟩, ⟨' ', g17, by decide⟩,
      ⟨'C', g18, by decide⟩, ⟨'O', g19, by decide⟩]
  show mrun patCleanName cs ⟨i₀, none⟩ some = some res
  rw [patCleanName_eq]
  rw [seq_listLits_run ['N', 'A', 'M', 'E'] cs ⟨i₀, none⟩ some _ hNAME]
  show mrun (.seq (.seq (.cls isPySpace) (.rep isPySpace false))
      (.seq (.grp (.seq (.cls nameCls) (.rep nameCls true))) patTailA)) cs
      ⟨i₀ + 4, none⟩ some = some res
  rw [mrun_seq_assoc]
  rw [seq_cls_step isPySpace cs ⟨i₀ + 4, none⟩ some _ g4 (by decide)]
  show mrun (.seq (.rep isPySpace false)
      (.seq (.grp (.seq (.cls nameCls) (.rep nameCls true))) patTailA)) cs
      ⟨i₀ + 5, none⟩ some = some res
  rw [seq_rep_noc isPySpace cs ⟨i₀ + 5, none⟩ some _ g5 (by decide)]
  show mrun (.seq (.cls nameCls) (.rep nameCls true)) cs ⟨i₀ + 5, none⟩
      (fun s => mrun patTailA cs ⟨s.pos, some (i₀ + 5, s.pos)⟩ some) = some res
  rw [seq_cls_step nameCls cs ⟨i₀ + 5, none⟩ _ _ g5 (by decide)]
  show repRun nameCls true cs (fun s => mrun patTailA cs ⟨s.pos, some (i₀ + 5, s.pos)⟩ some)
      ⟨i₀ + 6, none⟩ (cs.length - (i₀ + 6)) = some res
  rw [repRun_lazy_chain nameCls cs _ 14 ⟨i₀ + 6, none⟩ (cs.length - (i₀ + 6))
    hfail hcls (by omega)]
  show repRun nameCls true cs (fun s => mrun patTailA cs ⟨s.pos, some (i₀ + 5, s.pos)⟩ some)
      ⟨i₀ + 20, none⟩ (cs.length - (i₀ + 6) - 14) = some res
  exact repRun_lazy_some nameCls cs _ ⟨i₀ + 20, none⟩ H3 _

/-- C4: customer-name extraction returns the name trimmed of surrounding
whitespace and truncated at a trailing FAX label or at end of input:
every returned value is strip-idempotent, and for every text whose first
NAME-labelled occurrence is `NAME JOHN SMITH & CO FAX 011-1234567` —
that is, any text `pre ++ occurrence ++ post` in which the pattern
matches at no earlier position — extraction returns exactly
`JOHN SMITH & CO`; likewise for every text ending at the occurrence
`NAME JOHN SMITH & CO` (truncation at end of input). -/
theorem clean_customer_name_spec :
    (∀ text s, clean_customer_name text = some s → pyStrip s = s) ∧
    (∀ pre post : Str,
      (∀ m, m < pre.length →
        matchAt patCleanName (pre ++ ("NAME JOHN SMITH & CO FAX 011-1234567".data ++ post)) m =
          none) →
      clean_customer_name (pre ++ ("NAME JOHN SMITH & CO FAX 011-1234567".data ++ post)) =
        some ("JOHN SMITH & CO".data)) ∧
    (∀ pre : Str,
      (∀ m, m < pre.length →
        matchAt patCleanName (pre ++ "NAME JOHN SMITH & CO".data) m = none) →
      clean_customer_name (pre ++ "NAME JOHN SMITH & CO".data) =
        some ("JOHN SMITH & CO".data)) := by
  refine ⟨?_, ?_, ?_⟩
  · intro text s h
    rw [clean_customer_name_eq] at h
    exact extract_value_strip text patCleanName s h
  · intro pre post hfirst
    set cs : Str := pre ++ ("NAME JOHN SMITH & CO FAX 011-1234567".data ++ post) with hcs
    have hl36 : ("NAME JOHN SMITH & CO FAX 011-1234567".data).length = 36 := by decide
    have hmidF : ∀ j, j < 36 →
        cs.get? (pre.length + j) = ("NAME JOHN SMITH & CO FAX 011-1234567".data).get? j := by
      intro j hj
      rw [hcs, get?_append_mid]
      exact List.get?_append (by rw [hl36]; exact hj)
    have hlen : pre.length + 36 ≤ cs.length := by
      rw [hcs, List.length_append, List.length_append, hl36]
      omega
    have H1 : ∀ j, j < 20 →
        cs.get? (pre.length + j) = ("NAME JOHN SMITH & CO".data).get? j := by
      intro j hj
      rw [hmidF j (by omega)]
      exact (by decide : ∀ j, j < 20 →
        ("NAME JOHN SMITH & CO FAX 011-1234567".data).get? j =
          ("NAME JOHN SMITH & CO".data).get? j) j hj
    have g20 : cs.get? (pre.length + 20) = some ' ' := (hmidF 20 (by omega)).trans rfl
    have g21 : cs.get? (pre.length + 21) = some 'F' := (hmidF 21 (by omega)).trans rfl
    have g22 : cs.get? (pre.length + 22) = some 'A' := (hmidF 22 (by omega)).trans rfl
    have g23 : cs.get? (pre.length + 23) = some 'X' := (hmidF 23 (by omega)).trans rfl
    have h3 : mrun patTailA cs ⟨pre.length + 20, some (pre.length + 5, pre.length + 20)⟩ some =
        some ⟨pre.length + 24, some (pre.length + 5, pre.length + 20)⟩ := by
      apply mrun_alt_fst
      rw [seq_rep_one isPySpace cs ⟨pre.length + 20, some (pre.length + 5, pre.length + 20)⟩
        ⟨pre.length + 21, some (pre.length + 5, pre.length + 20)⟩ some _ g20 (by decide) rfl
        g21 (by decide) (show pre.length + 20 < cs.length from by omega)]
      rw [lits_run_bare ['F', 'A', 'X'] cs
        ⟨pre.length + 21, some (pre.length + 5, pre.length + 20)⟩ some (fun j hj => by
          have hj3 : j < 3 := hj
          interval_cases j
          · exact ⟨'F', g21, rfl⟩
          · exact ⟨'A', g22, rfl⟩
          · exact ⟨'X', g23, rfl⟩)]
      show some (⟨pre.length + 21 + 3, some (pre.length + 5, pre.length + 20)⟩ : MSt) =
        some ⟨pre.length + 24, some (pre.length + 5, pre.length + 20)⟩
      rw [show pre.length + 21 + 3 = pre.length + 24 from by omega]
    have hmatch := nameMatch cs pre.length H1 (by omega) _ h3
    have hres := reSearch_first patCleanName cs pre.length _ hmatch hfirst (by omega)
    rw [clean_customer_name_eq_of cs pre.length _ (pre.length + 5) (pre.length + 20) hres rfl]
    have hl15 : ("JOHN SMITH & CO".data).length = 15 := rfl
    have hsl : slice cs (pre.length + 5) (pre.length + 20) = "JOHN SMITH & CO".data := by
      rw [show pre.length + 20 = pre.length + 5 + ("JOHN SMITH & CO".data).length from by
        rw [hl15]]
      apply slice_eq
      · rw [hl15]; omega
      · intro j hj
        rw [hl15] at hj
        rw [show pre.length + 5 + j = pre.length + (5 + j) from by omega,
          hmidF (5 + j) (by omega)]
        exact (by decide : ∀ j, j < 15 →
          ("NAME JOHN SMITH & CO FAX 011-1234567".data).get? (5 + j) =
            ("JOHN SMITH & CO".data).get? j) j hj
    rw [hsl, show pyStrip ("JOHN SMITH & CO".data) = "JOHN SMITH & CO".data from by decide]
  · intro pre hfirst
    set cs : Str := pre ++ "NAME JOHN SMITH & CO".data with hcs
    have hl20 : ("NAME JOHN SMITH & CO".data).length = 20 := rfl
    have hlenE : cs.length = pre.length + 20 := by
      rw [hcs, List.length_append, hl20]
    have H1 : ∀ j, j < 20 →
        cs.get? (pre.length + j) = ("NAME JOHN SMITH & CO".data).get? j := by
      intro j _
      rw [hcs]
      exact get?_append_mid pre _ j
    have gEnd : cs.get? (pre.length + 20) = none := List.get?_eq_none.mpr (by omega)
    have h3 : mrun patTailA cs ⟨pre.length + 20, some (pre.length + 5, pre.length + 20)⟩ some =
        some ⟨pre.length + 20, some (pre.length + 5, pre.length + 20)⟩ := by
      have hB1 : mrun (.seq (.rep isPySpace false) (listLits ['F', 'A', 'X'])) cs
          ⟨pre.length + 20, some (pre.length + 5, pre.length + 20)⟩ some = none := by
        rw [seq_rep_end isPySpace cs _ some _ gEnd]
        exact listLits_end 'F' ['A', 'X'] cs _ some gEnd
      have hB2 : mrun (.seq (.rep isPySpace false) .eos) cs
          ⟨pre.length + 20, some (pre.length + 5, pre.length + 20)⟩ some =
          some ⟨pre.length + 20, some (pre.length + 5, pre.length + 20)⟩ := by
        rw [seq_rep_end isPySpace cs _ some _ gEnd]
        exact mrun_eos_yes cs _ some (show pre.length + 20 = cs.length from by omega)
      rw [show patTailA = Re.alt (.seq (.rep isPySpace false) (listLits ['F', 'A', 'X']))
        (.seq (.rep isPySpace false) .eos) from rfl]
      rw [mrun_alt_snd _ _ cs _ some hB1]
      exact hB2
    have hmatch := nameMatch cs pre.length H1 (by omega) _ h3
    have hres := reSearch_first patCleanName cs pre.length _ hmatch hfirst (by omega)
    rw [clean_customer_name_eq_of cs pre.length _ (pre.length + 5) (pre.length + 20) hres rfl]
    have hl15 : ("JOHN SMITH & CO".data).length = 15 := rfl
    have hsl : slice cs (pre.length + 5) (pre.length + 20) = "JOHN SMITH & CO".data := by
      rw [show pre.length + 20 = pre.length + 5 + ("JOHN SMITH & CO".data).length from by
        rw [hl15]]
      apply slice_eq
      · rw [hl15]; omega
      · intro j hj
        rw [hl15] at hj
        rw [show pre.length + 5 + j = pre.length + (5 + j) from by omega,
          H1 (5 + j) (by omega)]
        exact (by decide : ∀ j, j < 15 →
          ("NAME JOHN SMITH & CO".data).get? (5 + j) =
            ("JOHN SMITH & CO".data).get? j) j hj
    rw [hsl, show pyStrip ("JOHN SMITH & CO".data) = "JOHN SMITH & CO".data from by decide]

theorem clean_customer_name_spec_witness :
    clean_customer_name
      ("ACCOUNT 9\n".data ++ ("NAME JOHN SMITH & CO FAX 011-1234567".data ++ "\nTEL 5".data)) =
      some ("JOHN SMITH & CO".data) :=
  clean_customer_name_spec.2.1 ("ACCOUNT 9\n".data) ("\nTEL 5".data) (by decide)

/-- Whether every successful match of the pattern records a group-1
capture (true of every pattern in the source, whose single group is
mandatory). -/
def alwaysCaptures : Re → Bool
  | .eps => false
  | .lit _ => false
  | .cls _ => false
  | .seq a b => alwaysCaptures a || alwaysCaptures b
  | .alt a b => alwaysCaptures a && alwaysCaptures b
  | .rep _ _ => false
  | .grp _ => true
  | .eos => false

lemma repRun_exists (q : Char → Bool) (cs : Str) (k : MSt → Option MSt) (lz : Bool) :
    ∀ n st r, repRun q lz cs k st n = some r →
      ∃ st', k st' = some r ∧ st'.g1 = st.g1 := by
  intro n
  induction n with
  | zero => exact fun st r h => ⟨st, h, rfl⟩
  | succ n ih =>
    intro st r h
    rw [repRun] at h
    cases lz with
    | true =>
      rw [if_pos rfl] at h
      split at h
      · next r0 heq =>
        injection h with h
        subst h
        exact ⟨st, heq, rfl⟩
      · split at h
        · split at h
          · obtain ⟨st', h1, h2⟩ := ih _ _ h
            exact ⟨st', h1, h2⟩
          · cases h
        · cases h
    | false =>
      rw [if_neg Bool.false_ne_true] at h
      split at h
      · next r0 heq =>
        injection h with h
        subst h
        split at heq
        · split at heq
          · obtain ⟨st', h1, h2⟩ := ih _ _ heq
            exact ⟨st', h1, h2⟩
          · cases heq
        · cases heq
      · exact ⟨st, h, rfl⟩

lemma mrun_exists (cs : Str) (p : Re) :
    ∀ st k r, mrun p cs st k = some r →
      ∃ st', k st' = some r ∧ (st.g1.isSome → st'.g1.isSome) ∧
        (alwaysCaptures p = true → st'.g1.isSome) := by
  induction p with
  | eps =>
    intro st k r h
    exact ⟨st, h, fun hs => hs, fun hc => by simp [alwaysCaptures] at hc⟩
  | lit c =>
    intro st k r h
    simp only [mrun] at h
    split at h
    · split at h
      · exact ⟨⟨st.pos + 1, st.g1⟩, h, fun hs => hs,
          fun hcap => by simp [alwaysCaptures] at hcap⟩
      · cases h
    · cases h
  | cls q =>
    intro st k r h
    simp only [mrun] at h
    split at h
    · split at h
      · exact ⟨⟨st.pos + 1, st.g1⟩, h, fun hs => hs,
          fun hcap => by simp [alwaysCaptures] at hcap⟩
      · cases h
    · cases h
  | seq a b iha ihb =>
    intro st k r h
    simp only [mrun] at h
    obtain ⟨st1, h1, hm1, hc1⟩ := iha _ _ _ h
    obtain ⟨st2, h2, hm2, hc2⟩ := ihb _ _ _ h1
    refine ⟨st2, h2, fun hs => hm2 (hm1 hs), fun hcap => ?_⟩
    rw [alwaysCaptures, Bool.or_eq_true] at hcap
    rcases hcap with ha | hb
    · exact hm2 (hc1 ha)
    · exact hc2 hb
  | alt a b iha ihb =>
    intro st k r h
    simp only [mrun] at h
    cases hma : mrun a cs st k with
    | some r0 =>
      rw [hma] at h
      injection h with h
      subst h
      obtain ⟨st', h1, hm, hc⟩ := iha _ _ _ hma
      refine ⟨st', h1, hm, fun hcap => ?_⟩
      rw [alwaysCaptures, Bool.and_eq_true] at hcap
      exact hc hcap.1
    | none =>
      rw [hma] at h
      obtain ⟨st', h1, hm, hc⟩ := ihb _ _ _ h
      refine ⟨st', h1, hm, fun hcap => ?_⟩
      rw [alwaysCaptures, Bool.and_eq_true] at hcap
      exact hc hcap.2
  | rep q lz =>
    intro st k r h
    simp only [mrun] at h
    obtain ⟨st', h1, hg⟩ := repRun_exists q cs k lz _ _ _ h
    exact ⟨st', h1, fun hs => by rw [hg]; exact hs,
      fun hcap => by simp [alwaysCaptures] at hcap⟩
  | grp a iha =>
    intro st k r h
    simp only [mrun] at h
    obtain ⟨st1, h1, hm, hc⟩ := iha _ _ _ h
    exact ⟨⟨st1.pos, some (st.pos, st1.pos)⟩, h1, fun _ => rfl, fun _ => rfl⟩
  | eos =>
    intro st k r h
    simp only [mrun] at h
    by_cases hc : st.pos = cs.length ∨ (st.pos + 1 = cs.length ∧ cs.get? st.pos = some '\n')
    · rw [if_pos hc] at h
      exact ⟨st, h, fun hs => hs, fun hcap => by simp [alwaysCaptures] at hcap⟩
    · rw [if_neg hc] at h; cases h

lemma matchAt_g1_isSome {p : Re} {cs : Str} {i : Nat} {st : MSt}
    (hp : alwaysCaptures p = true) (h : matchAt p cs i = some st) :
    st.g1.isSome := by
  obtain ⟨st', h1, -, h3⟩ := mrun_exists cs p ⟨i, none⟩ some st h
  injection h1 with h1
  rw [← h1]
  exact h3 hp

lemma searchFrom_some (p : Re) (cs : Str) :
    ∀ fuel i j st, searchFrom p cs i fuel = some (j, st) →
      i ≤ j ∧ matchAt p cs j = some st ∧
        ∀ m, i ≤ m → m < j → matchAt p cs m = none := by
  intro fuel
  induction fuel with
  | zero => intro i j st h; simp only [searchFrom] at h; cases h
  | succ fuel ih =>
    intro i j st h
    simp only [searchFrom] at h
    cases hm : matchAt p cs i with
    | some st0 =>
      rw [hm] at h
      injection h with h
      obtain ⟨h1, h2⟩ := Prod.mk.injEq .. |>.mp h
      subst h1; subst h2
      exact ⟨le_refl i, hm, fun m hm1 hm2 => absurd hm2 (by omega)⟩
    | none =>
      rw [hm] at h
      obtain ⟨h1, h2, h3⟩ := ih (i + 1) j st h
      refine ⟨by omega, h2, fun m hm1 hm2 => ?_⟩
      by_cases hmi : m = i
      · subst hmi; exact hm
      · exact h3 m (by omega) hm2

lemma searchFrom_none (p : Re) (cs : Str) :
    ∀ fuel i, searchFrom p cs i fuel = none →
      ∀ m, i ≤ m → m < i + fuel → matchAt p cs m = none := by
  intro fuel
  induction fuel with
  | zero => intro i h m hm1 hm2; exact absurd hm2 (by omega)
  | succ fuel ih =>
    intro i h m hm1 hm2
    simp only [searchFrom] at h
    cases hm : matchAt p cs i with
    | some st0 => rw [hm] at h; cases h
    | none =>
      rw [hm] at h
      by_cases hmi : m = i
      · subst hmi; exact hm
      · exact ih (i + 1) h m (by omega) (by omega)

/-- C8: `extract_value` returns the first capture group of the first
(leftmost) case-insensitive match, trimmed of surrounding whitespace, or
null when the pattern has no match: for any text and any pattern whose
group participates in every match (true of all patterns in the source), a
`None` result means no position of the text carries a match, and a `some`
result is the stripped group-1 slice of the match at the least matching
position. -/
theorem extract_value_spec (text : Str) (p : Re) (hp : alwaysCaptures p = true) :
    (extract_value text p = none → ∀ m, m ≤ text.length → matchAt p text m = none) ∧
    (∀ s, extract_value text p = some s →
      ∃ i st a b, matchAt p text i = some st ∧
        (∀ m, m < i → matchAt p text m = none) ∧
        st.g1 = some (a, b) ∧ s = pyStrip (slice text a b)) := by
  cases h : reSearch p text with
  | none =>
    unfold reSearch at h
    have hall := searchFrom_none p text (text.length + 1) 0 h
    constructor
    · intro _ m hm
      exact hall m (Nat.zero_le m) (by omega)
    · intro s hs
      unfold extract_value at hs
      unfold reSearch at hs
      rw [h] at hs
      cases hs
  | some r =>
    obtain ⟨i, st⟩ := r
    unfold reSearch at h
    obtain ⟨-, h2, h3⟩ := searchFrom_some p text (text.length + 1) 0 i st h
    have hg := matchAt_g1_isSome hp h2
    obtain ⟨⟨a, b⟩, hab⟩ := Option.isSome_iff_exists.mp hg
    constructor
    · intro hnone
      unfold extract_value at hnone
      unfold reSearch at hnone
      rw [h] at hnone
      simp only [hab] at hnone
      cases hnone
    · intro s hs
      unfold extract_value at hs
      unfold reSearch at hs
      rw [h] at hs
      simp only [hab] at hs
      injection hs with hs
      exact ⟨i, st, a, b, h2, fun m hm => h3 m (Nat.zero_le m) hm, hab, hs.symm⟩

theorem extract_value_spec_witness :
    ∃ i st a b,
      matchAt patAccount ("YOUR ACCOUNT NO 1234567".data) i = some st ∧
      (∀ m, m < i → matchAt patAccount ("YOUR ACCOUNT NO 1234567".data) m = none) ∧
      st.g1 = some (a, b) ∧
      ("1234567".data) = pyStrip (slice ("YOUR ACCOUNT NO 1234567".data) a b) :=
  (extract_value_spec ("YOUR ACCOUNT NO 1234567".data) patAccount (by decide)).2
    ("1234567".data) (by decide)

lemma clean_numeric_value_unparseable (s : Str)
    (hp : pyFloat (removeCommas s) = none) :
    (clean_numeric_value (some s)).1 = 0 := by
  simp only [clean_numeric_value]
  split
  · rfl
  · rw [hp]

/-- C1 (counterexample): a concretely processed document appends a record
whose key list is exactly the twelve `process_pdf` fields and carries no
`reading_type` entry, refuting the claim that every appended record has
one entry per declared field including `reading_type` (only
`extract_bill_data`, whose result is never appended, extracts
`reading_type`). -/
theorem buildRecord_no_reading_type :
    (process_pdf (PdfDoc.pages [some []]) []).1 = true ∧
    (process_pdf (PdfDoc.pages [some []]) []).2 = [buildRecord []] ∧
    ((buildRecord []).map Prod.fst).contains "reading_type" = false := by
  exact ⟨rfl, rfl, rfl⟩

/-- C1 (amended): every record appended by `process_pdf` has exactly one
entry for each of its twelve fields, in the source's order
(`account_number`, `billing_date`, `invoice_number`, `account_month`,
`due_date`, `customer_name`, `opening_reading`, `closing_reading`,
`consumption`, `total_due`, `network_charge`, `energy_charge`;
`reading_type` is not among them); each absent textual field is null, and
each absent or unparseable numeric field equals 0.0. -/
theorem buildRecord_fields (text : Str) :
    (buildRecord text).map Prod.fst =
      ["account_number", "billing_date", "invoice_number", "account_month",
       "due_date", "customer_name", "opening_reading", "closing_reading",
       "consumption", "total_due", "network_charge", "energy_charge"] ∧
    (∀ f : TextField, extract_value text (textFieldPat f) = none →
      lookupField (textFieldName f) (buildRecord text) = some (.vStr none)) ∧
    (∀ f : NumField, extract_value text (numFieldPat f) = none →
      lookupField (numFieldName f) (buildRecord text) = some (.vNum 0)) ∧
    (∀ f : NumField, ∀ s, extract_value text (numFieldPat f) = some s →
      pyFloat (removeCommas s) = none →
      lookupField (numFieldName f) (buildRecord text) = some (.vNum 0)) := by
  refine ⟨rfl, ?_, ?_, ?_⟩
  · intro f
    cases f
    case account_number =>
      intro h
      show lookupField "account_number" (buildRecord text) = some (FieldValue.vStr none)
      rw [show lookupField "account_number" (buildRecord text) =
        some (FieldValue.vStr (extract_value text patAccount)) from rfl]
      rw [show textFieldPat TextField.account_number = patAccount from rfl] at h
      rw [h]
    case billing_date =>
      intro h
      show lookupField "billing_date" (buildRecord text) = some (FieldValue.vStr none)
      rw [show lookupField "billing_date" (buildRecord text) =
        some (FieldValue.vStr (extract_value text patBillingDate)) from rfl]
      rw [show textFieldPat TextField.billing_date = patBillingDate from rfl] at h
      rw [h]
    case invoice_number =>
      intro h
      show lookupField "invoice_number" (buildRecord text) = some (FieldValue.vStr none)
      rw [show lookupField "invoice_number" (buildRecord text) =
        some (FieldValue.vStr (extract_value text patInvoice)) from rfl]
      rw [show textFieldPat TextField.invoice_number = patInvoice from rfl] at h
      rw [h]
    case account_month =>
      intro h
      show lookupField "account_month" (buildRecord text) = some (FieldValue.vStr none)
      rw [show lookupField "account_month" (buildRecord text) =
        some (FieldValue.vStr (extract_value text patMonth)) from rfl]
      rw [show textFieldPat TextField.account_month = patMonth from rfl] at h
      rw [h]
    case due_date =>
      intro h
      show lookupField "due_date" (buildRecord text) = some (FieldValue.vStr none)
      rw [show lookupField "due_date" (buildRecord text) =
        some (FieldValue.vStr (extract_value text patDueDate)) from rfl]
      rw [show textFieldPat TextField.due_date = patDueDate from rfl] at h
      rw [h]
    case customer_name =>
      intro h
      show lookupField "customer_name" (buildRecord text) = some (FieldValue.vStr none)
      rw [show lookupField "customer_name" (buildRecord text) =
        some (FieldValue.vStr (extract_value text patName)) from rfl]
      rw [show textFieldPat TextField.customer_name = patName from rfl] at h
      rw [h]
  · intro f
    cases f
    case opening_reading =>
      intro h
      show lookupField "opening_reading" (buildRecord text) = some (FieldValue.vNum 0)
      rw [show lookupField "opening_reading" (buildRecord text) =
        some (FieldValue.vNum (clean_numeric_value (extract_value text patOpening)).1) from rfl]
      rw [show numFieldPat NumField.opening_reading = patOpening from rfl] at h
      rw [h]; rfl
    case closing_reading =>
      intro h
      show lookupField "closing_reading" (buildRecord text) = some (FieldValue.vNum 0)
      rw [show lookupField "closing_reading" (buildRecord text) =
        some (FieldValue.vNum (clean_numeric_value (extract_value text patClosing)).1) from rfl]
      rw [show numFieldPat NumField.closing_reading = patClosing from rfl] at h
      rw [h]; rfl
    case consumption =>
      intro h
      show lookupField "consumption" (buildRecord text) = some (FieldValue.vNum 0)
      rw [show lookupField "consumption" (buildRecord text) =
        some (FieldValue.vNum (clean_numeric_value (extract_value text patConsumption)).1) from rfl]
      rw [show numFieldPat NumField.consumption = patConsumption from rfl] at h
      rw [h]; rfl
    case total_due =>
      intro h
      show lookupField "total_due" (buildRecord text) = some (FieldValue.vNum 0)
      rw [show lookupField "total_due" (buildRecord text) =
        some (FieldValue.vNum (clean_numeric_value (extract_value text patTotalDue)).1) from rfl]
      rw [show numFieldPat NumField.total_due = patTotalDue from rfl] at h
      rw [h]; rfl
    case network_charge =>
      intro h
      show lookupField "network_charge" (buildRecord text) = some (FieldValue.vNum 0)
      rw [show lookupField "network_charge" (buildRecord text) =
        some (FieldValue.vNum (clean_numeric_value (extract_value text patNetwork)).1) from rfl]
      rw [show numFieldPat NumField.network_charge = patNetwork from rfl] at h
      rw [h]; rfl
    case energy_charge =>
      intro h
      show lookupField "energy_charge" (buildRecord text) = some (FieldValue.vNum 0)
      rw [show lookupField "energy_charge" (buildRecord text) =
        some (FieldValue.vNum (clean_numeric_value (extract_value text patEnergy)).1) from rfl]
      rw [show numFieldPat NumField.energy_charge = patEnergy from rfl] at h
      rw [h]; rfl
  · intro f
    cases f
    case opening_reading =>
      intro s hs hp
      show lookupField "opening_reading" (buildRecord text) = some (FieldValue.vNum 0)
      rw [show lookupField "opening_reading" (buildRecord text) =
        some (FieldValue.vNum (clean_numeric_value (extract_value text patOpening)).1) from rfl]
      rw [show numFieldPat NumField.opening_reading = patOpening from rfl] at hs
      rw [hs, clean_numeric_value_unparseable s hp]
    case closing_reading =>
      intro s hs hp
      show lookupField "closing_reading" (buildRecord text) = some (FieldValue.vNum 0)
      rw [show lookupField "closing_reading" (buildRecord text) =
        some (FieldValue.vNum (clean_numeric_value (extract_value text patClosing)).1) from rfl]
      rw [show numFieldPat NumField.closing_reading = patClosing from rfl] at hs
      rw [hs, clean_numeric_value_unparseable s hp]
    case consumption =>
      intro s hs hp
      show lookupField "consumption" (buildRecord text) = some (FieldValue.vNum 0)
      rw [show lookupField "consumption" (buildRecord text) =
        some (FieldValue.vNum (clean_numeric_value (extract_value text patConsumption)).1) from rfl]
      rw [show numFieldPat NumField.consumption = patConsumption from rfl] at hs
      rw [hs, clean_numeric_value_unparseable s hp]
    case total_due =>
      intro s hs hp
      show lookupField "total_due" (buildRecord text) = some (FieldValue.vNum 0)
      rw [show lookupField "total_due" (buildRecord text) =
        some (FieldValue.vNum (clean_numeric_value (extract_value text patTotalDue)).1) from rfl]
      rw [show numFieldPat NumField.total_due = patTotalDue from rfl] at hs
      rw [hs, clean_numeric_value_unparseable s hp]
    case network_charge =>
      intro s hs hp
      show lookupField "network_charge" (buildRecord text) = some (FieldValue.vNum 0)
      rw [show lookupField "network_charge" (buildRecord text) =
        some (FieldValue.vNum (clean_numeric_value (extract_value text patNetwork)).1) from rfl]
      rw [show numFieldPat NumField.network_charge = patNetwork from rfl] at hs
      rw [hs, clean_numeric_value_unparseable s hp]
    case energy_charge =>
      intro s hs hp
      show lookupField "energy_charge" (buildRecord text) = some (FieldValue.vNum 0)
      rw [show lookupField "energy_charge" (buildRecord text) =
        some (FieldValue.vNum (clean_numeric_value (extract_value text patEnergy)).1) from rfl]
      rw [show numFieldPat NumField.energy_charge = patEnergy from rfl] at hs
      rw [hs, clean_numeric_value_unparseable s hp]

theorem buildRecord_fields_witness :
    lookupField "customer_name" (buildRecord ("X".data)) = some (FieldValue.vStr none) :=
  (buildRecord_fields ("X".data)).2.1 TextField.customer_name (by decide)

end EskomBill
